import Mathlib

/-!
Shallow embedding of the cert-sync secret reconciler
(`controllers/secret_controller.go` and its second variant, here called the
lookahead variant) together with proofs about its behaviour.

Modelling conventions:
* Go `time.Time` values are `Int` nanosecond timestamps; `t.Before(u)` is
  strict `t < u`.
* Go pointers that may be nil (`*string`, `*time.Time`) are `Option` values.
* Fallible Go calls return `Except GoError` values; opaque errors coming back
  from external calls are `GoError.external`, errors built with `fmt.Errorf`
  are `GoError.errorf`.
* The byte-level loop that repeatedly calls `pem.Decode` is represented by
  taking the ordered list of PEM blocks decoded from the input byte sequence
  as the input of `splitCertificateChain`.
* Remote-service interaction is recorded as an explicit trace of
  `RemoteCall` values so that statements such as "no upsert is attempted"
  are about the trace of the run.
-/

namespace CertSync

/-- A Go `error` value: either one built locally with `fmt.Errorf`, or an
opaque error surfaced by an external call (AWS SDK, client.Get). -/
inductive GoError where
  | errorf (msg : String)
  | external (tag : String)
deriving DecidableEq, Repr

/-- A `pem.Block`: type literal, headers, and the raw DER bytes. -/
structure PemBlock where
  type : String
  headers : List (String × String)
  bytes : List Nat
deriving DecidableEq, Repr

/-- Standard base64 alphabet used by `encoding/base64.StdEncoding`. -/
def base64Alphabet : List Char :=
  "ABCDEFGHIJKLMNOPQRSTUVWXYZabcdefghijklmnopqrstuvwxyz0123456789+/".toList

def b64Char (n : Nat) : Char := base64Alphabet.getD n 'A'

/-- Base64-encode a byte list, three input bytes to four output characters,
padding the final group with `=` as `encoding/base64.StdEncoding` does. -/
def base64Groups : List Nat → List Char
  | [] => []
  | [b1] => [b64Char (b1 / 4 % 64), b64Char (b1 % 4 * 16), '=', '=']
  | [b1, b2] =>
      [b64Char (b1 / 4 % 64), b64Char (b1 % 4 * 16 + b2 / 16 % 16),
       b64Char (b2 % 16 * 4), '=']
  | b1 :: b2 :: b3 :: rest =>
      b64Char (b1 / 4 % 64) :: b64Char (b1 % 4 * 16 + b2 / 16 % 16) ::
      b64Char (b2 % 16 * 4 + b3 / 64 % 4) :: b64Char (b3 % 64) ::
      base64Groups rest

/-- `encoding/pem` wraps base64 output at 64 characters per line. -/
def pemLineLength : Nat := 64

/-- Split a character stream into lines of at most `pemLineLength`
characters, each terminated by a newline (the `lineBreaker` of
`encoding/pem`). -/
def wrapLines (cs : List Char) : List Char :=
  if h : cs = [] then []
  else cs.take pemLineLength ++ '\n' :: wrapLines (cs.drop pemLineLength)
termination_by cs.length
decreasing_by
  simp only [List.length_drop, pemLineLength]
  have hpos : 0 < cs.length := List.length_pos.mpr h
  omega

/-- One `k: v` header line, as written by `encoding/pem.writeHeader`. -/
def headerLine (kv : String × String) : String := kv.1 ++ ": " ++ kv.2 ++ "\n"

/-- `encoding/pem.Encode` refuses header keys containing a colon. -/
def validHeaders (hs : List (String × String)) : Bool :=
  hs.all (fun kv => !(kv.1.toList.contains ':'))

/-- Insertion into a sorted list of strings, byte-lexicographic order. -/
def insertSorted (s : String) : List String → List String
  | [] => [s]
  | t :: ts => if (compare s t).isLE then s :: t :: ts else t :: insertSorted s ts

/-- `sort.Strings`. -/
def sortStrings : List String → List String
  | [] => []
  | s :: ss => insertSorted s (sortStrings ss)

/-- The header section written by `encoding/pem.Encode`: the `Proc-Type`
header first when present, the remaining keys sorted, then a blank line;
empty when there are no headers. -/
def headersText (hs : List (String × String)) : String :=
  if hs.isEmpty then ""
  else
    let procPart :=
      match hs.find? (fun kv => kv.1 == "Proc-Type") with
      | some kv => headerLine kv
      | none => ""
    let otherKeys := sortStrings ((hs.filter (fun kv => kv.1 != "Proc-Type")).map (fun kv => kv.1))
    procPart ++
      String.join (otherKeys.map (fun k =>
        match hs.find? (fun kv => kv.1 == k) with
        | some kv => headerLine kv
        | none => "")) ++ "\n"

/-- The PEM text written by `encoding/pem.Encode` for a block with valid
headers: BEGIN armor, headers, wrapped base64 body, END armor. -/
def encodeBlock (b : PemBlock) : String :=
  "-----BEGIN " ++ b.type ++ "-----\n" ++
  headersText b.headers ++
  String.mk (wrapLines (base64Groups b.bytes)) ++
  "-----END " ++ b.type ++ "-----\n"

/-- `pem.EncodeToMemory`: the encoded block, or nil (here `""`) when the
block's headers are invalid and `pem.Encode` errors out. -/
def encodeToMemory (b : PemBlock) : String :=
  if validHeaders b.headers then encodeBlock b else ""

/-- `splitCertificateChain`: collect the blocks whose type literal is
`"CERTIFICATE"`, in order; fail when there are none; otherwise the leaf is
the re-encoded first such block and the chain is the concatenation of the
re-encodings of the rest.  The byte-level `pem.Decode` loop of the source is
represented by the input being the decoded block list. -/
def splitCertificateChain (blocks : List PemBlock) : Except GoError (String × String) :=
  match blocks.filter (fun b => b.type == "CERTIFICATE") with
  | [] => .error (.errorf "no certificates found in PEM data")
  | leaf :: rest => .ok (encodeToMemory leaf, String.join (rest.map encodeToMemory))

/-- The fields of an ACM `types.CertificateDetail` that the reconciler
reads: the record identifier, the primary domain, the alternate-domain set,
and the expiry timestamp.  Pointer-valued fields are `Option`. -/
structure CertificateDetail where
  certificateArn : Option String
  domainName : Option String
  subjectAlternativeNames : List String
  notAfter : Option Int
deriving DecidableEq, Repr

instance {ε α : Type} [DecidableEq ε] [DecidableEq α] : DecidableEq (Except ε α) := by
  intro a b
  cases a <;> cases b
  case error.error x y =>
    exact if h : x = y then .isTrue (by rw [h]) else .isFalse (fun hh => h (by cases hh; rfl))
  case error.ok x y => exact .isFalse (fun hh => by cases hh)
  case ok.error x y => exact .isFalse (fun hh => by cases hh)
  case ok.ok x y =>
    exact if h : x = y then .isTrue (by rw [h]) else .isFalse (fun hh => h (by cases hh; rfl))

/-- One entry of a catalog page: the `CertificateSummary`'s identifier and
the outcome that `DescribeCertificate` produces for it. -/
structure PageEntry where
  summaryArn : Option String
  describeResult : Except GoError CertificateDetail
deriving DecidableEq, Repr

/-- The paginated remote catalog: the outcome of each successive
`ListCertificates` page fetch, each successful page being its entries in the
order the service returns them. -/
abbrev Catalog := List (Except GoError (List PageEntry))

/-- A remote certificate-service call made during a reconciliation.
`importCertificate` records the target identifier (none for a fresh import)
and the ownership tag value `namespace/name`; the certificate, chain and key
payloads are not recorded in the trace. -/
inductive RemoteCall where
  | listCertificatesPage
  | describeCertificate (arn : Option String)
  | importCertificate (arn : Option String) (tagValue : String)
deriving DecidableEq, Repr

/-- Embedding of the guard `certDetail.DomainName == &domainName` in
`findSecretByDomain`.  In the Go source this compares two `*string` POINTER
values: `&domainName` is the address of the local parameter, which is a
distinct allocation from whatever pointer the SDK stored in the decoded
`CertificateDetail` (and `nil` also differs from `&domainName`), so the
comparison is false for every record regardless of string contents. -/
def domainNamePtrEq (_certDetail : CertificateDetail) (_domainName : String) : Bool :=
  false

/-- The inner loop of `findSecretByDomain` over one page's summaries: for
each entry issue `DescribeCertificate` (recorded in the trace); an error
terminates the whole traversal; a detail record matching on the primary
domain guard or on some alternate domain is returned; otherwise continue.
Returns the calls made and `none` when the page is exhausted unmatched. -/
def findInPage (domainName : String) : List PageEntry →
    List RemoteCall × Option (Except GoError CertificateDetail)
  | [] => ([], none)
  | entry :: rest =>
    match entry.describeResult with
    | .error e => ([.describeCertificate entry.summaryArn], some (.error e))
    | .ok certDetail =>
      if domainNamePtrEq certDetail domainName then
        ([.describeCertificate entry.summaryArn], some (.ok certDetail))
      else if certDetail.subjectAlternativeNames.contains domainName then
        ([.describeCertificate entry.summaryArn], some (.ok certDetail))
      else
        (.describeCertificate entry.summaryArn :: (findInPage domainName rest).1,
         (findInPage domainName rest).2)

/-- `findSecretByDomain`: walk the paginator page by page (each `NextPage`
recorded as a `listCertificatesPage` call); a page-fetch error or a
describe error is returned as is; a match stops the traversal; a traversal
that exhausts every page yields `.ok none` ("certificate not found"). -/
def findSecretByDomain (domainName : String) : Catalog →
    List RemoteCall × Except GoError (Option CertificateDetail)
  | [] => ([], .ok none)
  | pageResult :: restPages =>
    match pageResult with
    | .error e => ([.listCertificatesPage], .error e)
    | .ok page =>
      match (findInPage domainName page).2 with
      | some (.error e) =>
          (.listCertificatesPage :: (findInPage domainName page).1, .error e)
      | some (.ok certDetail) =>
          (.listCertificatesPage :: (findInPage domainName page).1, .ok (some certDetail))
      | none =>
          (.listCertificatesPage :: (findInPage domainName page).1
             ++ (findSecretByDomain domainName restPages).1,
           (findSecretByDomain domainName restPages).2)

/-- The Locator match policy as the spec words it: exact string equality
between the requested domain and the record's primary domain field, or
membership of the requested domain in the record's alternate-domain set. -/
def specDomainMatches (certDetail : CertificateDetail) (domainName : String) : Bool :=
  certDetail.domainName == some domainName
    || certDetail.subjectAlternativeNames.contains domainName

def nanosPerHour : Int := 3600 * 1000000000

/-- `72 * time.Hour` in nanoseconds. -/
def hours72 : Int := 72 * nanosPerHour

/-- `5 * time.Minute` in nanoseconds. -/
def minutes5 : Int := 5 * 60 * 1000000000

/-- `24 * time.Hour` in nanoseconds. -/
def hours24 : Int := 24 * nanosPerHour

/-- The fields of a `corev1.Secret` that the reconciler reads.  The
`tls.crt` payload is carried as its decoded PEM block list (see
`splitCertificateChain`); the `tls.key` payload is opaque. -/
structure KubeSecret where
  annotations : List (String × String)
  type : String
  tlsCrtBlocks : List PemBlock
  tlsKey : String
  namespaceName : String
  name : String
deriving DecidableEq, Repr

/-- Go map indexing `m[k]`: the stored value, or the zero value `""`. -/
def mapIndex (m : List (String × String)) (k : String) : String :=
  match m.find? (fun kv => kv.1 == k) with
  | some kv => kv.2
  | none => ""

/-- Go comma-ok map lookup `v, ok := m[k]`. -/
def mapFind (m : List (String × String)) (k : String) : Option String :=
  (m.find? (fun kv => kv.1 == k)).map (fun kv => kv.2)

/-- The outcome of `r.Get` for the request's namespaced name. -/
inductive GetResult where
  | notFound
  | getError (e : GoError)
  | found (secret : KubeSecret)
deriving Repr

/-- The external world of one `Reconcile` invocation: the outcome of
`awsclient.NewACMClient`, the outcome of fetching the secret, the remote
catalog behind the paginator, the outcome an `ImportCertificate` call would
produce, and the value of `time.Now()` at the decision point. -/
structure Env where
  acmClientErr : Option GoError
  getResult : GetResult
  catalog : Catalog
  importErr : Option GoError
  now : Int
deriving Repr

/-- `ctrl.Result`; the zero value `ctrl.Result\x7b\x7d` has `RequeueAfter = 0`. -/
structure CtrlResult where
  requeueAfter : Int := 0
deriving DecidableEq, Repr

/-- What one `Reconcile` invocation returns and does: the `ctrl.Result`,
the error value, and the trace of remote certificate-service calls. -/
structure Outcome where
  result : CtrlResult
  err : Option GoError
  calls : List RemoteCall
deriving Repr

/-- `importToAcm`: one `ImportCertificate` call with no target identifier
and the `kubernetes-secrets = namespace/name` ownership tag; its outcome is
the environment's import outcome. -/
def importToAcm (importErr : Option GoError) (secret : KubeSecret)
    (_certPEM _chainPEM _keyPEM : String) : List RemoteCall × Option GoError :=
  ([.importCertificate none (secret.namespaceName ++ "/" ++ secret.name)], importErr)

/-- `updateToAcm`: one `ImportCertificate` call targeting the existing
record's identifier, with the same ownership tag. -/
def updateToAcm (importErr : Option GoError) (secret : KubeSecret)
    (certificateArn : Option String) (_certPEM _chainPEM _keyPEM : String) :
    List RemoteCall × Option GoError :=
  ([.importCertificate certificateArn (secret.namespaceName ++ "/" ++ secret.name)], importErr)

/-- Lines 72-113 of the lookahead reconciler variant, after the eligibility
filter has passed with domain `domainName`: locate the remote record, split
the certificate payload, then either update (expiry strictly before
`now + 72h`), skip (otherwise, and also when `NotAfter` is nil), or import
fresh (no record located).  Success returns a 24-hour requeue; any step
failure returns the error with a 5-minute requeue. -/
def syncEligibleSecret (secret : KubeSecret) (domainName : String)
    (catalog : Catalog) (importErr : Option GoError) (now : Int) : Outcome :=
  match (findSecretByDomain domainName catalog).2 with
  | .error e => ⟨⟨minutes5⟩, some e, (findSecretByDomain domainName catalog).1⟩
  | .ok located =>
    match splitCertificateChain secret.tlsCrtBlocks with
    | .error e => ⟨⟨minutes5⟩, some e, (findSecretByDomain domainName catalog).1⟩
    | .ok leafChain =>
      match located with
      | some existingCert =>
        match existingCert.notAfter with
        | some t =>
          if t < now + hours72 then
            match updateToAcm importErr secret existingCert.certificateArn
                leafChain.1 leafChain.2 secret.tlsKey with
            | (upCalls, some e) =>
                ⟨⟨minutes5⟩, some e, (findSecretByDomain domainName catalog).1 ++ upCalls⟩
            | (upCalls, none) =>
                ⟨⟨hours24⟩, none, (findSecretByDomain domainName catalog).1 ++ upCalls⟩
          else ⟨⟨hours24⟩, none, (findSecretByDomain domainName catalog).1⟩
        | none => ⟨⟨hours24⟩, none, (findSecretByDomain domainName catalog).1⟩
      | none =>
        match importToAcm importErr secret leafChain.1 leafChain.2 secret.tlsKey with
        | (impCalls, some e) =>
            ⟨⟨minutes5⟩, some e, (findSecretByDomain domainName catalog).1 ++ impCalls⟩
        | (impCalls, none) =>
            ⟨⟨hours24⟩, none, (findSecretByDomain domainName catalog).1 ++ impCalls⟩

/-- `Reconcile` of the lookahead variant: build the ACM client, fetch the
secret, run the eligibility filter (opt-in annotation equal to `"true"`,
secret type `kubernetes.io/tls`, non-empty `cert-manager.io/common-name`),
then `syncEligibleSecret`.  Client failure returns the error with the zero
result; a missing secret and an ineligible secret are silent no-ops. -/
def Reconcile (env : Env) : Outcome :=
  match env.acmClientErr with
  | some e => ⟨{}, some e, []⟩
  | none =>
    match env.getResult with
    | .notFound => ⟨{}, none, []⟩
    | .getError e => ⟨{}, some e, []⟩
    | .found secret =>
      if mapIndex secret.annotations "sync-to-acm" ≠ "true" then ⟨{}, none, []⟩
      else if secret.type ≠ "kubernetes.io/tls" then ⟨{}, none, []⟩
      else
        match mapFind secret.annotations "cert-manager.io/common-name" with
        | none => ⟨{}, none, []⟩
        | some domainName =>
          if domainName = "" then ⟨{}, none, []⟩
          else syncEligibleSecret secret domainName env.catalog env.importErr env.now

/-- The three possible decisions of the Sync Decision Engine. -/
inductive SyncAction where
  | createNew
  | replace (certificateArn : Option String)
  | noOp
deriving DecidableEq, Repr

/-- The decision logic of the lookahead reconciler variant (guard
`NotAfter != nil && NotAfter.Before(time.Now().Add(72*time.Hour))`). -/
def decideLookahead (located : Option CertificateDetail) (now : Int) : SyncAction :=
  match located with
  | none => .createNew
  | some c =>
    match c.notAfter with
    | some t => if t < now + hours72 then .replace c.certificateArn else .noOp
    | none => .noOp

/-- The decision logic of the `controllers/secret_controller.go` variant
(guard `NotAfter != nil && NotAfter.Before(time.Now())`). -/
def decideExpiredOnly (located : Option CertificateDetail) (now : Int) : SyncAction :=
  match located with
  | none => .createNew
  | some c =>
    match c.notAfter with
    | some t => if t < now then .replace c.certificateArn else .noOp
    | none => .noOp

/-- The eligibility filter of `Reconcile`, with `domainName` the value of
the `cert-manager.io/common-name` annotation. -/
abbrev Eligible (secret : KubeSecret) (domainName : String) : Prop :=
  mapIndex secret.annotations "sync-to-acm" = "true" ∧
  secret.type = "kubernetes.io/tls" ∧
  mapFind secret.annotations "cert-manager.io/common-name" = some domainName ∧
  domainName ≠ ""

lemma findInPage_no_import (domainName : String) (page : List PageEntry)
    (a : Option String) (tag : String) :
    RemoteCall.importCertificate a tag ∉ (findInPage domainName page).1 := by
  induction page with
  | nil => simp [findInPage]
  | cons entry rest ih =>
    unfold findInPage
    split
    · simp
    · split
      · simp
      · split
        · simp
        · simp only [List.mem_cons]
          rintro (h | h)
          · cases h
          · exact ih h

lemma findSecretByDomain_cons_ok (domainName : String) (page : List PageEntry)
    (restPages : Catalog) :
    findSecretByDomain domainName (.ok page :: restPages) =
      (match (findInPage domainName page).2 with
       | some (.error e) =>
           (.listCertificatesPage :: (findInPage domainName page).1, .error e)
       | some (.ok certDetail) =>
           (.listCertificatesPage :: (findInPage domainName page).1, .ok (some certDetail))
       | none =>
           (.listCertificatesPage :: (findInPage domainName page).1
              ++ (findSecretByDomain domainName restPages).1,
            (findSecretByDomain domainName restPages).2)) := by
  rfl

lemma findSecretByDomain_no_import (domainName : String) (catalog : Catalog)
    (a : Option String) (tag : String) :
    RemoteCall.importCertificate a tag ∉ (findSecretByDomain domainName catalog).1 := by
  induction catalog with
  | nil => simp [findSecretByDomain]
  | cons pr rest ih =>
    cases pr with
    | error e => simp [findSecretByDomain]
    | ok page =>
      rw [findSecretByDomain_cons_ok]
      split
      · intro hmem
        rcases List.mem_cons.mp hmem with h | h
        · cases h
        · exact findInPage_no_import domainName page a tag h
      · intro hmem
        rcases List.mem_cons.mp hmem with h | h
        · cases h
        · exact findInPage_no_import domainName page a tag h
      · intro hmem
        rcases List.mem_cons.mp hmem with h | h
        · cases h
        · rcases List.mem_append.mp h with h2 | h2
          · exact findInPage_no_import domainName page a tag h2
          · exact ih h2

lemma findInPage_none_all_ok (domainName : String) (page : List PageEntry)
    (h : (findInPage domainName page).2 = none) :
    ∀ entry ∈ page, ∃ c, entry.describeResult = .ok c := by
  induction page with
  | nil => intro entry he; cases he
  | cons entry rest ih =>
    unfold findInPage at h
    cases hd : entry.describeResult with
    | error e => rw [hd] at h; simp at h
    | ok certDetail =>
      rw [hd] at h
      simp only [domainNamePtrEq, Bool.false_eq_true, if_false] at h
      by_cases hc : certDetail.subjectAlternativeNames.contains domainName
      · rw [if_pos hc] at h; simp at h
      · rw [if_neg hc] at h
        intro x hx
        rcases List.mem_cons.mp hx with rfl | hx
        · exact ⟨certDetail, hd⟩
        · exact ih h x hx

/-- `Reconcile` on an eligible fetched secret is the post-filter body. -/
lemma reconcile_eligible_eq (secret : KubeSecret) (domainName : String)
    (catalog : Catalog) (importErr : Option GoError) (now : Int)
    (he : Eligible secret domainName) :
    Reconcile ⟨none, .found secret, catalog, importErr, now⟩ =
      syncEligibleSecret secret domainName catalog importErr now := by
  obtain ⟨h1, h2, h3, h4⟩ := he
  have hre : Reconcile ⟨none, .found secret, catalog, importErr, now⟩ =
      (if mapIndex secret.annotations "sync-to-acm" ≠ "true" then (⟨{}, none, []⟩ : Outcome)
       else if secret.type ≠ "kubernetes.io/tls" then ⟨{}, none, []⟩
       else
         match mapFind secret.annotations "cert-manager.io/common-name" with
         | none => ⟨{}, none, []⟩
         | some d =>
           if d = "" then ⟨{}, none, []⟩
           else syncEligibleSecret secret d catalog importErr now) := rfl
  rw [hre, if_neg (not_not_intro h1), if_neg (not_not_intro h2), h3]
  exact if_neg h4

/-- `syncEligibleSecret`, when locating fails, surfaces the error with the
short retry interval and only the locator's calls. -/
lemma sync_find_error (secret : KubeSecret) (domainName : String)
    (catalog : Catalog) (importErr : Option GoError) (now : Int) (e : GoError)
    (hf : (findSecretByDomain domainName catalog).2 = .error e) :
    syncEligibleSecret secret domainName catalog importErr now =
      ⟨⟨minutes5⟩, some e, (findSecretByDomain domainName catalog).1⟩ := by
  unfold syncEligibleSecret
  rw [hf]

/-- `syncEligibleSecret`, when the locate succeeds and the split fails,
surfaces the split error with the short retry interval. -/
lemma sync_split_error (secret : KubeSecret) (domainName : String)
    (catalog : Catalog) (importErr : Option GoError) (now : Int)
    (located : Option CertificateDetail) (e : GoError)
    (hf : (findSecretByDomain domainName catalog).2 = .ok located)
    (hs : splitCertificateChain secret.tlsCrtBlocks = .error e) :
    syncEligibleSecret secret domainName catalog importErr now =
      ⟨⟨minutes5⟩, some e, (findSecretByDomain domainName catalog).1⟩ := by
  unfold syncEligibleSecret
  rw [hf, hs]

/-- With locate and split both successful, `syncEligibleSecret` follows the
decision of `decideLookahead`: no call for `noOp`, one `ImportCertificate`
call (to the located identifier for `replace`, to none for `createNew`),
the import outcome deciding between the 24-hour and 5-minute intervals. -/
lemma sync_decide (secret : KubeSecret) (domainName : String)
    (catalog : Catalog) (importErr : Option GoError) (now : Int)
    (located : Option CertificateDetail) (lc : String × String)
    (hf : (findSecretByDomain domainName catalog).2 = .ok located)
    (hs : splitCertificateChain secret.tlsCrtBlocks = .ok lc) :
    syncEligibleSecret secret domainName catalog importErr now =
      (match decideLookahead located now with
       | .noOp => ⟨⟨hours24⟩, none, (findSecretByDomain domainName catalog).1⟩
       | .replace arn =>
         match importErr with
         | some e => ⟨⟨minutes5⟩, some e, (findSecretByDomain domainName catalog).1
             ++ [.importCertificate arn (secret.namespaceName ++ "/" ++ secret.name)]⟩
         | none => ⟨⟨hours24⟩, none, (findSecretByDomain domainName catalog).1
             ++ [.importCertificate arn (secret.namespaceName ++ "/" ++ secret.name)]⟩
       | .createNew =>
         match importErr with
         | some e => ⟨⟨minutes5⟩, some e, (findSecretByDomain domainName catalog).1
             ++ [.importCertificate none (secret.namespaceName ++ "/" ++ secret.name)]⟩
         | none => ⟨⟨hours24⟩, none, (findSecretByDomain domainName catalog).1
             ++ [.importCertificate none (secret.namespaceName ++ "/" ++ secret.name)]⟩) := by
  cases located with
  | none =>
    unfold syncEligibleSecret decideLookahead
    simp only [hf, hs]
    cases importErr <;> rfl
  | some c =>
    cases hna : c.notAfter with
    | none =>
      unfold syncEligibleSecret decideLookahead
      simp only [hf, hs, hna]
    | some t =>
      unfold syncEligibleSecret decideLookahead
      simp only [hf, hs, hna]
      by_cases ht : t < now + hours72
      · rw [if_pos ht, if_pos ht]
        cases importErr <;> rfl
      · rw [if_neg ht, if_neg ht]

/-- A record whose primary domain field holds the requested domain but whose
alternate-domain set does not. -/
def certPrimaryOnly : CertificateDetail :=
  ⟨some "arn-primary", some "primary.example.org", [], some 0⟩

def catalogPrimaryOnly : Catalog :=
  [.ok [⟨some "arn-primary", .ok certPrimaryOnly⟩]]

/-- An eligible TLS secret opting in for domain `app.example.com`. -/
def secretEligible : KubeSecret :=
  ⟨[("sync-to-acm", "true"), ("cert-manager.io/common-name", "app.example.com")],
   "kubernetes.io/tls", [⟨"CERTIFICATE", [], [1, 2, 3]⟩], "key-bytes", "prod", "app-tls"⟩

/-- A located record whose expiry is exactly 72 hours after time 0. -/
def certBoundary : CertificateDetail :=
  ⟨some "arn-boundary", none, ["app.example.com"], some hours72⟩

def catalogBoundary : Catalog :=
  [.ok [⟨some "arn-boundary", .ok certBoundary⟩]]

/-- A located record with no expiry timestamp (`NotAfter` nil). -/
def certNoExpiry : CertificateDetail :=
  ⟨some "arn-noexpiry", none, ["app.example.com"], none⟩

def catalogNoExpiry : Catalog :=
  [.ok [⟨some "arn-noexpiry", .ok certNoExpiry⟩]]

/-- C4: for every input whose CERTIFICATE-typed PEM blocks, in original
order, are `leaf :: rest` (so at least one such block exists, with
non-CERTIFICATE blocks ignored by the filter), `splitCertificateChain`
succeeds with leaf the re-encoding of the first such block and chain the
concatenation of the re-encodings of the remaining ones in order; the
function is pure, so it has no side effects. -/
theorem splitCertificateChain_structure (blocks : List PemBlock)
    (leaf : PemBlock) (rest : List PemBlock)
    (h : blocks.filter (fun b => b.type == "CERTIFICATE") = leaf :: rest) :
    splitCertificateChain blocks =
      .ok (encodeToMemory leaf, String.join (rest.map encodeToMemory)) := by
  unfold splitCertificateChain
  rw [h]

/-- Witness for C4 at a concrete three-block input whose first block is a
private key: the key block is ignored, the first CERTIFICATE block becomes
the leaf, the second the chain. -/
theorem splitCertificateChain_structure_witness :
    (([⟨"EC PRIVATE KEY", [], [10]⟩, ⟨"CERTIFICATE", [], [1, 2, 3]⟩,
       ⟨"CERTIFICATE", [], [4, 5]⟩] : List PemBlock).filter
        (fun b => b.type == "CERTIFICATE")
      = [⟨"CERTIFICATE", [], [1, 2, 3]⟩, ⟨"CERTIFICATE", [], [4, 5]⟩]) ∧
    splitCertificateChain
        [⟨"EC PRIVATE KEY", [], [10]⟩, ⟨"CERTIFICATE", [], [1, 2, 3]⟩,
         ⟨"CERTIFICATE", [], [4, 5]⟩] =
      .ok (encodeToMemory ⟨"CERTIFICATE", [], [1, 2, 3]⟩,
           String.join ([(⟨"CERTIFICATE", [], [4, 5]⟩ : PemBlock)].map encodeToMemory)) :=
  ⟨rfl, splitCertificateChain_structure _ _ _ rfl⟩

/-- C6: for every input with zero CERTIFICATE-typed PEM blocks (the filter
is empty), `splitCertificateChain` fails with the malformed-input error and
returns no leaf and no chain. -/
theorem splitCertificateChain_no_certs (blocks : List PemBlock)
    (h : blocks.filter (fun b => b.type == "CERTIFICATE") = []) :
    splitCertificateChain blocks = .error (.errorf "no certificates found in PEM data") := by
  unfold splitCertificateChain
  rw [h]

/-- Witness for C6 at the empty input and at an input holding only a
non-CERTIFICATE block. -/
theorem splitCertificateChain_no_certs_witness :
    splitCertificateChain [] = .error (.errorf "no certificates found in PEM data") ∧
    splitCertificateChain [⟨"RSA PRIVATE KEY", [], [7]⟩] =
      .error (.errorf "no certificates found in PEM data") :=
  ⟨splitCertificateChain_no_certs [] rfl,
   splitCertificateChain_no_certs [⟨"RSA PRIVATE KEY", [], [7]⟩] rfl⟩

/-- C2 (code bug): the primary-domain guard of `findSecretByDomain` is the
Go pointer comparison `certDetail.DomainName == &domainName`, which is false
for every record, so a record carrying the requested domain only in its
primary domain field — which the spec's match policy selects, as
`specDomainMatches` shows — is skipped and the locator reports absent. -/
theorem findSecretByDomain_primary_domain_ignored :
    (∀ (c : CertificateDetail) (d : String), domainNamePtrEq c d = false) ∧
    specDomainMatches certPrimaryOnly "primary.example.org" = true ∧
    (findSecretByDomain "primary.example.org" catalogPrimaryOnly).2 = .ok none :=
  ⟨fun _ _ => rfl, rfl, rfl⟩

/-- C3: the two reconciler variants in the repository decide differently on
a record whose expiry lies strictly between now and now + 72 hours: the
lookahead variant replaces it, the expired-only variant leaves it alone. -/
theorem variants_decide_differently :
    ∃ (c : CertificateDetail) (now t : Int),
      c.notAfter = some t ∧ now < t ∧ t < now + hours72 ∧
      decideLookahead (some c) now = .replace c.certificateArn ∧
      decideExpiredOnly (some c) now = .noOp := by
  refine ⟨⟨some "arn-mid", none, [], some 1⟩, 0, 1, rfl, by decide, ?_, by decide, by decide⟩
  show (1 : Int) < 0 + hours72
  simp [hours72, nanosPerHour]

/-- C10: the ACM client is constructed before the secret is fetched and
before the eligibility filter runs, so when construction fails `Reconcile`
returns that error with the zero result (no requeue interval) and makes no
remote call, whatever the state of the secret — deleted, erroring, or
ineligible alike. -/
theorem reconcile_client_init_failure (e : GoError) (g : GetResult)
    (catalog : Catalog) (importErr : Option GoError) (now : Int) :
    Reconcile ⟨some e, g, catalog, importErr, now⟩ = ⟨{}, some e, []⟩ :=
  rfl

/-- C5: the Locator reports "absent" (`.ok none`) only from a traversal in
which every page fetch and every per-certificate detail fetch succeeded; a
reached failure is surfaced as that error, never as absent. -/
theorem findSecretByDomain_absent_requires_clean_traversal
    (domainName : String) (catalog : Catalog)
    (h : (findSecretByDomain domainName catalog).2 = .ok none) :
    ∀ pr ∈ catalog, ∃ page, pr = .ok page ∧
      ∀ entry ∈ page, ∃ c, entry.describeResult = .ok c := by
  induction catalog with
  | nil => intro pr hpr; cases hpr
  | cons pr rest ih =>
    cases pr with
    | error e =>
      rw [show findSecretByDomain domainName (.error e :: rest) =
            ([.listCertificatesPage], .error e) from rfl] at h
      simp at h
    | ok page =>
      rw [findSecretByDomain_cons_ok] at h
      cases hip : (findInPage domainName page).2 with
      | none =>
        rw [hip] at h
        simp only at h
        intro pr2 hpr2
        rcases List.mem_cons.mp hpr2 with rfl | hpr2
        · exact ⟨page, rfl, findInPage_none_all_ok domainName page hip⟩
        · exact ih h pr2 hpr2
      | some r =>
        rw [hip] at h
        cases r with
        | error e => simp at h
        | ok c => simp at h

/-- Witness for C5: a one-page catalog whose single record neither matches
nor fails gives `.ok none`, and the theorem then certifies every fetch in
it succeeded. -/
theorem findSecretByDomain_absent_witness :
    ((findSecretByDomain "absent.example.com"
        [.ok [⟨some "arn-w5",
              .ok ⟨some "arn-w5", some "other.example.com", ["other.example.com"], some 5⟩⟩]]).2
      = .ok none) ∧
    ∀ pr ∈ ([.ok [⟨some "arn-w5",
              .ok ⟨some "arn-w5", some "other.example.com", ["other.example.com"], some 5⟩⟩]] : Catalog),
      ∃ page, pr = .ok page ∧ ∀ entry ∈ page, ∃ c, entry.describeResult = .ok c :=
  ⟨rfl, findSecretByDomain_absent_requires_clean_traversal "absent.example.com" _ rfl⟩

/-- C7: a fetched secret that fails the eligibility filter — opt-in
annotation not the literal `"true"`, or type not the TLS type, or the
common-name annotation missing or empty — yields the zero result with nil
error and an empty remote-call trace. -/
theorem reconcile_ineligible_silent_skip (secret : KubeSecret) (catalog : Catalog)
    (importErr : Option GoError) (now : Int)
    (h : mapIndex secret.annotations "sync-to-acm" ≠ "true" ∨
         secret.type ≠ "kubernetes.io/tls" ∨
         mapFind secret.annotations "cert-manager.io/common-name" = none ∨
         mapFind secret.annotations "cert-manager.io/common-name" = some "") :
    Reconcile ⟨none, .found secret, catalog, importErr, now⟩ = ⟨{}, none, []⟩ := by
  have hre : Reconcile ⟨none, .found secret, catalog, importErr, now⟩ =
      (if mapIndex secret.annotations "sync-to-acm" ≠ "true" then (⟨{}, none, []⟩ : Outcome)
       else if secret.type ≠ "kubernetes.io/tls" then ⟨{}, none, []⟩
       else
         match mapFind secret.annotations "cert-manager.io/common-name" with
         | none => ⟨{}, none, []⟩
         | some d =>
           if d = "" then ⟨{}, none, []⟩
           else syncEligibleSecret secret d catalog importErr now) := rfl
  rw [hre]
  by_cases h1 : mapIndex secret.annotations "sync-to-acm" ≠ "true"
  · rw [if_pos h1]
  · rw [if_neg h1]
    by_cases h2 : secret.type ≠ "kubernetes.io/tls"
    · rw [if_pos h2]
    · rw [if_neg h2]
      rcases h with h | h | h | h
      · exact absurd h h1
      · exact absurd h h2
      · rw [h]
      · rw [h]
        simp

/-- A TLS secret that never opted in to syncing. -/
def secretNoOptIn : KubeSecret :=
  ⟨[("cert-manager.io/common-name", "app.example.com")], "kubernetes.io/tls",
   [⟨"CERTIFICATE", [], [1]⟩], "key-bytes", "prod", "app-tls"⟩

/-- Witness for C7 at a secret missing the opt-in annotation. -/
theorem reconcile_ineligible_silent_skip_witness :
    Reconcile ⟨none, .found secretNoOptIn, catalogBoundary, none, 0⟩ = ⟨{}, none, []⟩ :=
  reconcile_ineligible_silent_skip secretNoOptIn catalogBoundary none 0 (Or.inl (by decide))

/-- C1 counterexample: a located record whose expiry is exactly now + 72
hours ("at" now + 72h, so at-or-before it) is left alone — the run makes a
page-list call and a describe call but no import call, and succeeds — where
the claim requires a REPLACE import carrying the record's identifier.  The
source guard `NotAfter.Before(now.Add(72h))` is strict. -/
theorem reconcile_boundary_counterexample :
    certBoundary.notAfter = some hours72 ∧
    (hours72 : Int) ≤ 0 + hours72 ∧
    (findSecretByDomain "app.example.com" catalogBoundary).2 = .ok (some certBoundary) ∧
    (Reconcile ⟨none, .found secretEligible, catalogBoundary, none, 0⟩).calls =
      [.listCertificatesPage, .describeCertificate (some "arn-boundary")] ∧
    (Reconcile ⟨none, .found secretEligible, catalogBoundary, none, 0⟩).err = none :=
  ⟨rfl, by simp, rfl, rfl, rfl⟩

/-- C1 (amended): for an eligible secret whose locate and split steps both
succeed, a located record with expiry STRICTLY before now + 72 hours leads
to one import call carrying the located record's identifier (REPLACE); a
located record with expiry at or after now + 72 hours leads to no upsert,
the run's calls being exactly the locator's (NO_OP); no located record
leads to one import call with no identifier (CREATE). -/
theorem reconcile_decision_policy (secret : KubeSecret) (domainName : String)
    (catalog : Catalog) (importErr : Option GoError) (now : Int)
    (he : Eligible secret domainName)
    (located : Option CertificateDetail)
    (hf : (findSecretByDomain domainName catalog).2 = .ok located)
    (lc : String × String)
    (hs : splitCertificateChain secret.tlsCrtBlocks = .ok lc) :
    (∀ c t, located = some c → c.notAfter = some t → ¬ t < now + hours72 →
        (Reconcile ⟨none, .found secret, catalog, importErr, now⟩).calls =
          (findSecretByDomain domainName catalog).1) ∧
    (∀ c t, located = some c → c.notAfter = some t → t < now + hours72 →
        (Reconcile ⟨none, .found secret, catalog, importErr, now⟩).calls =
          (findSecretByDomain domainName catalog).1
            ++ [.importCertificate c.certificateArn
                  (secret.namespaceName ++ "/" ++ secret.name)]) ∧
    (located = none →
        (Reconcile ⟨none, .found secret, catalog, importErr, now⟩).calls =
          (findSecretByDomain domainName catalog).1
            ++ [.importCertificate none (secret.namespaceName ++ "/" ++ secret.name)]) := by
  rw [reconcile_eligible_eq secret domainName catalog importErr now he,
      sync_decide secret domainName catalog importErr now located lc hf hs]
  refine ⟨?_, ?_, ?_⟩
  · rintro c t rfl hna ht
    simp only [decideLookahead, hna, if_neg ht]
  · rintro c t rfl hna ht
    simp only [decideLookahead, hna, if_pos ht]
    cases importErr <;> rfl
  · rintro rfl
    simp only [decideLookahead]
    cases importErr <;> rfl

/-- Witness for the amended C1 at now = 1, where the boundary record's
expiry is strictly inside the window, so the run replaces it in place. -/
theorem reconcile_decision_policy_witness :
    (Reconcile ⟨none, .found secretEligible, catalogBoundary, none, 1⟩).calls =
      (findSecretByDomain "app.example.com" catalogBoundary).1
        ++ [.importCertificate (some "arn-boundary") ("prod" ++ "/" ++ "app-tls")] :=
  (reconcile_decision_policy secretEligible "app.example.com" catalogBoundary none 1
      (by decide) (some certBoundary) rfl _ rfl).2.1 certBoundary hours72 rfl rfl
    (by omega)

/-- C9: when the located record's `NotAfter` is nil the guard is false, so
the reconciler treats the record as valid — no upsert, and the run returns
the 24-hour success result with nil error. -/
theorem reconcile_nil_expiry_noop (secret : KubeSecret) (domainName : String)
    (catalog : Catalog) (importErr : Option GoError) (now : Int)
    (he : Eligible secret domainName) (c : CertificateDetail)
    (hf : (findSecretByDomain domainName catalog).2 = .ok (some c))
    (hna : c.notAfter = none)
    (lc : String × String)
    (hs : splitCertificateChain secret.tlsCrtBlocks = .ok lc) :
    Reconcile ⟨none, .found secret, catalog, importErr, now⟩ =
      ⟨⟨hours24⟩, none, (findSecretByDomain domainName catalog).1⟩ := by
  rw [reconcile_eligible_eq secret domainName catalog importErr now he,
      sync_decide secret domainName catalog importErr now (some c) lc hf hs]
  simp only [decideLookahead, hna]

/-- Witness for C9 at a catalog whose matching record has no expiry. -/
theorem reconcile_nil_expiry_noop_witness :
    Reconcile ⟨none, .found secretEligible, catalogNoExpiry, none, 0⟩ =
      ⟨⟨hours24⟩, none, (findSecretByDomain "app.example.com" catalogNoExpiry).1⟩ :=
  reconcile_nil_expiry_noop secretEligible "app.example.com" catalogNoExpiry none 0
    (by decide) certNoExpiry rfl rfl _ rfl

/-- C8: for an eligible secret, a run that ends with nil error requeues
after 24 hours; a run that ends with an error requeues after 5 minutes; a
locate failure or a split failure surfaces that step's error with no import
call in the trace; and when an import is attempted and fails, its error is
the run's error with the 5-minute requeue. -/
theorem reconcile_requeue_policy (secret : KubeSecret) (domainName : String)
    (catalog : Catalog) (importErr : Option GoError) (now : Int)
    (he : Eligible secret domainName) :
    ((Reconcile ⟨none, .found secret, catalog, importErr, now⟩).err = none →
       (Reconcile ⟨none, .found secret, catalog, importErr, now⟩).result = ⟨hours24⟩) ∧
    (∀ e, (Reconcile ⟨none, .found secret, catalog, importErr, now⟩).err = some e →
       (Reconcile ⟨none, .found secret, catalog, importErr, now⟩).result = ⟨minutes5⟩) ∧
    (∀ e, (findSecretByDomain domainName catalog).2 = .error e →
       (Reconcile ⟨none, .found secret, catalog, importErr, now⟩).err = some e ∧
       ∀ a tag, RemoteCall.importCertificate a tag ∉
         (Reconcile ⟨none, .found secret, catalog, importErr, now⟩).calls) ∧
    (∀ located e, (findSecretByDomain domainName catalog).2 = .ok located →
       splitCertificateChain secret.tlsCrtBlocks = .error e →
       (Reconcile ⟨none, .found secret, catalog, importErr, now⟩).err = some e ∧
       ∀ a tag, RemoteCall.importCertificate a tag ∉
         (Reconcile ⟨none, .found secret, catalog, importErr, now⟩).calls) ∧
    (∀ located lc e, (findSecretByDomain domainName catalog).2 = .ok located →
       splitCertificateChain secret.tlsCrtBlocks = .ok lc →
       decideLookahead located now ≠ .noOp → importErr = some e →
       (Reconcile ⟨none, .found secret, catalog, importErr, now⟩).err = some e ∧
       (Reconcile ⟨none, .found secret, catalog, importErr, now⟩).result = ⟨minutes5⟩) := by
  rw [reconcile_eligible_eq secret domainName catalog importErr now he]
  refine ⟨?_, ?_, ?_, ?_, ?_⟩
  · intro h
    cases hf : (findSecretByDomain domainName catalog).2 with
    | error e =>
      rw [sync_find_error secret domainName catalog importErr now e hf] at h
      simp at h
    | ok located =>
      cases hs : splitCertificateChain secret.tlsCrtBlocks with
      | error e =>
        rw [sync_split_error secret domainName catalog importErr now located e hf hs] at h
        simp at h
      | ok lc =>
        rw [sync_decide secret domainName catalog importErr now located lc hf hs] at h ⊢
        cases hdl : decideLookahead located now with
        | noOp => rfl
        | replace arn =>
          rw [hdl] at h
          cases importErr with
          | some e => simp at h
          | none => rfl
        | createNew =>
          rw [hdl] at h
          cases importErr with
          | some e => simp at h
          | none => rfl
  · intro e h
    cases hf : (findSecretByDomain domainName catalog).2 with
    | error e2 =>
      rw [sync_find_error secret domainName catalog importErr now e2 hf]
    | ok located =>
      cases hs : splitCertificateChain secret.tlsCrtBlocks with
      | error e2 =>
        rw [sync_split_error secret domainName catalog importErr now located e2 hf hs]
      | ok lc =>
        rw [sync_decide secret domainName catalog importErr now located lc hf hs] at h ⊢
        cases hdl : decideLookahead located now with
        | noOp => rw [hdl] at h; simp at h
        | replace arn =>
          rw [hdl] at h
          cases importErr with
          | some e2 => rfl
          | none => simp at h
        | createNew =>
          rw [hdl] at h
          cases importErr with
          | some e2 => rfl
          | none => simp at h
  · intro e hf
    rw [sync_find_error secret domainName catalog importErr now e hf]
    exact ⟨rfl, fun a tag => findSecretByDomain_no_import domainName catalog a tag⟩
  · intro located e hf hs
    rw [sync_split_error secret domainName catalog importErr now located e hf hs]
    exact ⟨rfl, fun a tag => findSecretByDomain_no_import domainName catalog a tag⟩
  · intro located lc e hf hs hd hie
    rw [sync_decide secret domainName catalog importErr now located lc hf hs]
    cases hdl : decideLookahead located now with
    | noOp => exact absurd hdl hd
    | replace arn => rw [hie]; exact ⟨rfl, rfl⟩
    | createNew => rw [hie]; exact ⟨rfl, rfl⟩

/-- A catalog whose first page fetch fails. -/
def catalogListFails : Catalog := [.error (.external "ListCertificates throttled")]

/-- Witness for C8: a transiently failing listing call surfaces its error
and no upsert is attempted. -/
theorem reconcile_requeue_policy_witness :
    (Reconcile ⟨none, .found secretEligible, catalogListFails, none, 0⟩).err =
        some (.external "ListCertificates throttled") ∧
    ∀ a tag, RemoteCall.importCertificate a tag ∉
        (Reconcile ⟨none, .found secretEligible, catalogListFails, none, 0⟩).calls :=
  (reconcile_requeue_policy secretEligible "app.example.com" catalogListFails none 0
      (by decide)).2.2.1 (.external "ListCertificates throttled") rfl

end CertSync
